import Mathlib

/-!
Verification of the uc3m_money account-management core: a shallow embedding
of `account_manager.py` and `account_deposit.py` in Lean 4, with theorems
checking the natural-language specification against the code.

Modelling conventions:
* Python strings are Lean `String` / `List Char`; the regular expressions of
  the source are translated into explicit recognizers over `List Char`.
* Python `float` values are observable in this code only through parsing of
  decimal literals, range comparisons, and their `str()` rendering; they are
  modelled as exact decimals (`Rat` values plus the fraction-digit count that
  `str(float(x))` shows, i.e. the literal with trailing fractional zeros
  stripped).  This is exact for every short decimal the validators accept.
* `raise AccountManagementException(...)` becomes `Except.error` with one
  constructor per distinct reason string.
* File I/O is explicit state passing: each store file is a `JsonFile` value
  (`missing`, `malformed`, or parsed `content`); a function that writes a
  store returns the updated state.  `datetime.now(...)` becomes an explicit
  parameter (the current UTC date, or the timestamp rendering).
-/

/-- Error taxonomy: one constructor per distinct reason string raised as
`AccountManagementException` in the source. -/
inductive AMError where
  | invalidIbanFormat      -- "Invalid IBAN format"
  | invalidIbanControl     -- "Invalid IBAN control digit"
  | invalidConcept         -- "Invalid concept format"
  | invalidDateFormat      -- "Invalid date format"
  | dateInPast             -- "Transfer date must be today or later."
  | invalidTransferType    -- "Invalid transfer type"
  | invalidAmount          -- "Invalid transfer amount"
  | jsonDecodeError        -- "JSON Decode Error - Wrong JSON Format"
  | wrongFilePath          -- "Wrong file  or file path"
  | duplicateTransfer      -- "Duplicated transfer in transfer list"
  | fileInputNotFound      -- "Error: file input not found"
  | invalidKey             -- "Error - Invalid Key in JSON"
  | invalidDepositAmount   -- "Error - Invalid deposit amount"
  | depositNotPositive     -- "Error - Deposit must be greater than 0"
  | ibanNotFound           -- "IBAN not found"
deriving DecidableEq, Repr

/-- A persisted JSON store file: absent, present but not valid JSON, or the
parsed list it holds. -/
inductive JsonFile (α : Type) where
  | missing : JsonFile α
  | malformed : JsonFile α
  | content : α → JsonFile α
deriving DecidableEq, Repr

/-- ASCII decimal digit, the `[0-9]` character class. -/
def isDigitChar (c : Char) : Bool := '0' ≤ c && c ≤ '9'

/-- Numeric value of an ASCII digit character. -/
def digitVal (c : Char) : Nat := c.toNat - 48

/-- The `[a-zA-Z]` character class of the concept regex. -/
def isAlphaChar (c : Char) : Bool :=
  ('a' ≤ c && c ≤ 'z') || ('A' ≤ c && c ≤ 'Z')

/-- The `\s` character class (ASCII part, which is all these validators can
see on their accepted inputs). -/
def isSpaceChar (c : Char) : Bool :=
  c == ' ' || c == '\t' || c == '\n' || c == '\r' || c == '\x0b' || c == '\x0c'

/-- Reads a digit list as a base-10 number, as `int(...)` does on the digit
string the source builds. -/
def numFromDigits (ds : List Nat) : Nat := ds.foldl (fun a d => 10 * a + d) 0

/-! ## IBAN validation (`AccountManager.validate_iban`) -/

/-- Letter substitution of the source: an uppercase letter becomes the two
decimal digits of `ord(c) - ord('A') + 10` (A=10 .. Z=35); a digit passes
through with its value. -/
def letterSubDigits (c : Char) : List Nat :=
  if 'A' ≤ c && c ≤ 'Z' then [(c.toNat - 55) / 10, (c.toNat - 55) % 10]
  else [digitVal c]

/-- The `re.fullmatch(r"^ES[0-9]{22}", iban_input)` test: the whole string is
`ES` followed by exactly 22 ASCII digits. -/
def ibanFormatOk (l : List Char) : Bool :=
  decide (l.length = 24) && l.take 2 == ['E', 'S'] && (l.drop 2).all isDigitChar

/-- The original two-digit check code `int(iban[2:4])`. -/
def checkCodeOf (l : List Char) : Nat :=
  numFromDigits (((l.drop 2).take 2).map digitVal)

/-- Value of the rearranged, letter-substituted string: the source replaces
the check digits with "00", moves the first four characters (`ES00`) to the
end, substitutes letters, and reads the result as an integer.  `E` becomes
`14`, `S` becomes `28`, so the digit string is `iban[4:] ++ "142800"`. -/
def rearrangedValue (l : List Char) : Nat :=
  numFromDigits ((l.drop 4 ++ ['E', 'S', '0', '0']).flatMap letterSubDigits)

/-- Embedding of `AccountManager.validate_iban`: format check, then compare
`98 - (rearranged value mod 97)` with the original check code; return the
input unchanged on success. -/
def validate_iban (s : String) : Except AMError String :=
  if ibanFormatOk s.data then
    if checkCodeOf s.data = 98 - rearrangedValue s.data % 97 then .ok s
    else .error .invalidIbanControl
  else .error .invalidIbanFormat

/-- Digit character for a value 0..9 (used to render generated check digits). -/
def renderDigit (k : Nat) : Char :=
  match k with
  | 0 => '0' | 1 => '1' | 2 => '2' | 3 => '3' | 4 => '4'
  | 5 => '5' | 6 => '6' | 7 => '7' | 8 => '8' | _ => '9'

/-- Rearranged value determined by the 20-digit tail alone (the check digits
are zeroed out before the rearrangement, so they do not enter it). -/
def tailRearrangedValue (tail : List Char) : Nat :=
  numFromDigits ((tail ++ ['E', 'S', '0', '0']).flatMap letterSubDigits)

/-- A Spanish IBAN whose check digits are generated by the same mod-97
formula the validator applies: `ES` ++ two generated digits ++ the tail. -/
def mkIbanEs (tail : List Char) : String :=
  let n := 98 - tailRearrangedValue tail % 97
  ⟨'E' :: 'S' :: renderDigit (n / 10) :: renderDigit (n % 10) :: tail⟩

/-! ## Concept validation (`AccountManager.validate_concept`)

The source pattern is `^(?=^.{10,30}$)([a-zA-Z]+(\s[a-zA-Z]+)+)$`, used with
`fullmatch`.  The lookahead requires 10 to 30 characters none of which is a
newline (`.` does not match a newline; `$` may also match just before one
trailing newline).  The body is one alphabetic run followed by at least one
repetition of (one whitespace character, one alphabetic run); since the two
character classes are disjoint, the greedy translation below recognises
exactly the strings that pattern matches. -/

/-- Recognises `(\s[a-zA-Z]+)*` consuming the whole list: each repetition is
one whitespace character followed by a nonempty alphabetic run.  The fuel
argument (instantiated with the list length, which bounds the recursion
depth) keeps the recursion structural so the function evaluates by
reduction. -/
def sepWordsAux : Nat → List Char → Bool
  | _, [] => true
  | 0, _ :: _ => false
  | fuel + 1, c :: rest =>
      isSpaceChar c && !(rest.takeWhile isAlphaChar).isEmpty &&
        sepWordsAux fuel (rest.dropWhile isAlphaChar)

/-- The `(\s[a-zA-Z]+)*` recognizer at its natural fuel. -/
def sepWordsMatch (l : List Char) : Bool := sepWordsAux l.length l

/-- Recognises the regex body `[a-zA-Z]+(\s[a-zA-Z]+)+` against the whole
list. -/
def conceptBodyMatch (l : List Char) : Bool :=
  !(l.takeWhile isAlphaChar).isEmpty &&
  !(l.dropWhile isAlphaChar).isEmpty &&
  sepWordsMatch (l.dropWhile isAlphaChar)

/-- The lookahead `(?=^.{10,30}$)` anchored at the start of the whole string:
either 10..30 newline-free characters make up the whole string, or they are
followed by one final newline. -/
def conceptLookahead (l : List Char) : Bool :=
  (decide (10 ≤ l.length) && decide (l.length ≤ 30) && l.all (fun c => c != '\n')) ||
  (match l.getLast? with
   | some c =>
       c == '\n' && decide (10 ≤ l.length - 1) && decide (l.length - 1 ≤ 30) &&
         l.dropLast.all (fun c2 => c2 != '\n')
   | none => false)

/-- Embedding of `AccountManager.validate_concept`. -/
def validate_concept (s : String) : Except AMError Unit :=
  if conceptLookahead s.data && conceptBodyMatch s.data then .ok ()
  else .error .invalidConcept

/-- Interleaving of a first word with (separator, word) pairs; the shape the
concept claim describes. -/
def joinWords (w0 : List Char) (rest : List (Char × List Char)) : List Char :=
  w0 ++ rest.flatMap (fun p => p.1 :: p.2)

/-- The claim's reading of the concept rule: the string consists of at least
two runs of alphabetic characters, consecutive runs separated by one
whitespace character. -/
def isConceptWords (l : List Char) : Prop :=
  ∃ w0 rest, l = joinWords w0 rest ∧ w0 ≠ [] ∧ w0.all isAlphaChar = true ∧
    rest ≠ [] ∧
    ∀ p ∈ rest, isSpaceChar p.1 = true ∧ p.2 ≠ [] ∧ p.2.all isAlphaChar = true

/-! ## Transfer date validation (`AccountManager.validate_transfer_date`) -/

/-- A calendar date as the validator sees it. -/
structure SDate where
  y : Nat
  m : Nat
  d : Nat
deriving DecidableEq, Repr

/-- Strict ordering of dates, `parsed_date < today`. -/
def dateBefore (a b : SDate) : Bool :=
  decide (a.y < b.y) ||
    (decide (a.y = b.y) &&
      (decide (a.m < b.m) || (decide (a.m = b.m) && decide (a.d < b.d))))

/-- The date regex `^(([0-2]\d|3[0-1])\/(0\d|1[0-2])\/\d\d\d\d)$` under
`fullmatch`: exactly `DD/MM/YYYY` with day 00..31 and month 00..12. -/
def dateRegexOk (l : List Char) : Bool :=
  match l with
  | [d1, d2, s1, m1, m2, s2, y1, y2, y3, y4] =>
      s1 == '/' && s2 == '/' &&
      ((('0' ≤ d1 && d1 ≤ '2') && isDigitChar d2) ||
        (d1 == '3' && (d2 == '0' || d2 == '1'))) &&
      ((m1 == '0' && isDigitChar m2) ||
        (m1 == '1' && (m2 == '0' || m2 == '1' || m2 == '2'))) &&
      isDigitChar y1 && isDigitChar y2 && isDigitChar y3 && isDigitChar y4
  | _ => false

/-- Numeric day/month/year of a string already known to have the
`DD/MM/YYYY` shape. -/
def parseDMY (l : List Char) : SDate :=
  match l with
  | [d1, d2, _, m1, m2, _, y1, y2, y3, y4] =>
      ⟨digitVal y1 * 1000 + digitVal y2 * 100 + digitVal y3 * 10 + digitVal y4,
        digitVal m1 * 10 + digitVal m2,
        digitVal d1 * 10 + digitVal d2⟩
  | _ => ⟨0, 0, 0⟩

/-- Gregorian leap year, as `datetime` implements it. -/
def isLeapYear (y : Nat) : Bool :=
  (y % 4 == 0 && y % 100 != 0) || y % 400 == 0

/-- Days in a month of a year. -/
def daysInMonth (y m : Nat) : Nat :=
  if m == 2 then (if isLeapYear y then 29 else 28)
  else if m == 4 || m == 6 || m == 9 || m == 11 then 30
  else 31

/-- The real-calendar-date requirement `datetime.strptime(...)` imposes on a
`DD/MM/YYYY` string: a positive year, month 1..12, day within the month. -/
def calendarOk (dt : SDate) : Bool :=
  decide (1 ≤ dt.y) && decide (1 ≤ dt.m) && decide (dt.m ≤ 12) &&
    decide (1 ≤ dt.d) && decide (dt.d ≤ daysInMonth dt.y dt.m)

/-- Embedding of `AccountManager.validate_transfer_date`; `today` is the
current UTC date `datetime.now(timezone.utc).date()`. -/
def validate_transfer_date (today : SDate) (s : String) : Except AMError String :=
  if !dateRegexOk s.data then .error .invalidDateFormat
  else
    let dt := parseDMY s.data
    if !calendarOk dt then .error .invalidDateFormat
    else if dateBefore dt today then .error .dateInPast
    else if dt.y < 2025 || 2050 < dt.y then .error .invalidDateFormat
    else .ok s

/-! ## Transfer amount validation (lines 119-131 of `transfer_request`)

The source runs `float(amount)`, renders it back with `str`, and counts the
digits after the decimal point of that rendering; `str(float(x))` shows the
value's shortest decimal form, so trailing fractional zeros of the input are
gone.  `parseDecimal` models this exactly for plain decimal literals: it
returns the exact value and the fraction-digit count after stripping
trailing zeros. -/

/-- Trailing `'0'` characters removed from a fraction-digit list. -/
def stripTrailingZeros (ds : List Char) : List Char :=
  (ds.reverse.dropWhile (fun c => c == '0')).reverse

/-- Parses an optionally signed plain decimal literal (`float(...)` on the
forms these claims exercise): returns the exact value and the number of
fractional digits that `str(float(...))` would show. -/
def parseDecimal (s : String) : Option (Rat × Nat) :=
  let (sign, l2) : Int × List Char :=
    match s.data with
    | '-' :: r => (-1, r)
    | '+' :: r => (1, r)
    | l => (1, l)
  let ip := l2.takeWhile isDigitChar
  let rest := l2.dropWhile isDigitChar
  match rest with
  | [] =>
      if ip.isEmpty then none
      else some ((sign * (numFromDigits (ip.map digitVal) : Int) : Int), 0)
  | '.' :: fr =>
      if fr.all isDigitChar && !(ip.isEmpty && fr.isEmpty) then
        let k := fr.length
        let num : Int :=
          sign * ((numFromDigits (ip.map digitVal)) * 10 ^ k +
            numFromDigits (fr.map digitVal))
        some (mkRat num (10 ^ k), (stripTrailingZeros fr).length)
      else none
  | _ => none

/-- Embedding of the amount validation inside `transfer_request`: parse
failure, more than two shown fractional digits, or a value outside
[10, 10000] fail with the invalid-amount error; otherwise the parsed value
is kept. -/
def validateTransferAmount (s : String) : Except AMError Rat :=
  match parseDecimal s with
  | none => .error .invalidAmount
  | some (q, k) =>
      if 2 < k then .error .invalidAmount
      else if q < 10 ∨ 10000 < q then .error .invalidAmount
      else .ok q

/-- The claim's acceptance condition for amounts, written from the spec's
words: parseable, at most two (significant) fractional digits, value within
[10, 10000]. -/
def specAmountOk (s : String) : Bool :=
  match parseDecimal s with
  | none => false
  | some (q, k) => decide (k ≤ 2) && decide (10 ≤ q) && decide (q ≤ 10000)

/-- Number of fractional digits as literally written in the input string:
the characters after the first dot. -/
def writtenFracDigits (s : String) : Nat :=
  match s.data.dropWhile (fun c => c != '.') with
  | [] => 0
  | _ :: fr => fr.length

/-! ## SHA-256 (`hashlib.sha256(...).hexdigest()`)

A full executable SHA-256 over byte lists, words as `Nat` reduced mod 2^32. -/

/-- UTF-8 bytes of one character, the `str.encode()` model. -/
def charUtf8 (c : Char) : List Nat :=
  let n := c.toNat
  if n < 128 then [n]
  else if n < 2048 then [192 + n / 64, 128 + n % 64]
  else if n < 65536 then [224 + n / 4096, 128 + (n / 64) % 64, 128 + n % 64]
  else [240 + n / 262144, 128 + (n / 4096) % 64, 128 + (n / 64) % 64, 128 + n % 64]

/-- UTF-8 encoding of a string as a byte list. -/
def utf8Bytes (s : String) : List Nat := s.data.flatMap charUtf8

/-- Right rotation of a 32-bit word. -/
def rotr32 (n x : Nat) : Nat := ((x >>> n) ||| (x <<< (32 - n))) &&& 4294967295

/-- The SHA-256 big sigma-0 function. -/
def bsig0 (x : Nat) : Nat := rotr32 2 x ^^^ rotr32 13 x ^^^ rotr32 22 x

/-- The SHA-256 big sigma-1 function. -/
def bsig1 (x : Nat) : Nat := rotr32 6 x ^^^ rotr32 11 x ^^^ rotr32 25 x

/-- The SHA-256 small sigma-0 function. -/
def ssig0 (x : Nat) : Nat := rotr32 7 x ^^^ rotr32 18 x ^^^ (x >>> 3)

/-- The SHA-256 small sigma-1 function. -/
def ssig1 (x : Nat) : Nat := rotr32 17 x ^^^ rotr32 19 x ^^^ (x >>> 10)

/-- The SHA-256 choose function. -/
def chFn (x y z : Nat) : Nat := (x &&& y) ^^^ ((x ^^^ 4294967295) &&& z)

/-- The SHA-256 majority function. -/
def majFn (x y z : Nat) : Nat := (x &&& y) ^^^ (x &&& z) ^^^ (y &&& z)

/-- The 64 SHA-256 round constants (decimal rendering of the standard
values). -/
def sha256K : List Nat :=
  [1116352408, 1899447441, 3049323471, 3921009573, 961987163,
   1508970993, 2453635748, 2870763221, 3624381080, 310598401,
   607225278, 1426881987, 1925078388, 2162078206, 2614888103,
   3248222580, 3835390401, 4022224774, 264347078, 604807628,
   770255983, 1249150122, 1555081692, 1996064986, 2554220882,
   2821834349, 2952996808, 3210313671, 3336571891, 3584528711,
   113926993, 338241895, 666307205, 773529912, 1294757372,
   1396182291, 1695183700, 1986661051, 2177026350, 2456956037,
   2730485921, 2820302411, 3259730800, 3345764771, 3516065817,
   3600352804, 4094571909, 275423344, 430227734, 506948616,
   659060556, 883997877, 958139571, 1322822218, 1537002063,
   1747873779, 1955562222, 2024104815, 2227730452, 2361852424,
   2428436474, 2756734187, 3204031479, 3329325298]

/-- Working state of the compression function. -/
structure Hash8 where
  a : Nat
  b : Nat
  c : Nat
  d : Nat
  e : Nat
  f : Nat
  g : Nat
  h : Nat
deriving DecidableEq, Repr

/-- The SHA-256 initial hash value (decimal rendering of the standard
values). -/
def sha256Init : Hash8 :=
  ⟨1779033703, 3144134277, 1013904242, 2773480762,
    1359893119, 2600822924, 528734635, 1541459225⟩

/-- A 64-bit length rendered as 8 big-endian bytes. -/
def be8Bytes (n : Nat) : List Nat :=
  [(n >>> 56) &&& 255, (n >>> 48) &&& 255, (n >>> 40) &&& 255, (n >>> 32) &&& 255,
   (n >>> 24) &&& 255, (n >>> 16) &&& 255, (n >>> 8) &&& 255, n &&& 255]

/-- A 32-bit word rendered as 4 big-endian bytes. -/
def be4Bytes (n : Nat) : List Nat :=
  [(n >>> 24) &&& 255, (n >>> 16) &&& 255, (n >>> 8) &&& 255, n &&& 255]

/-- SHA-256 message padding: a 0x80 byte, zeros to 56 mod 64, the bit length
as 8 big-endian bytes. -/
def sha256Pad (msg : List Nat) : List Nat :=
  let len := msg.length
  let zeros := (120 - (len + 1) % 64) % 64
  msg ++ 128 :: List.replicate zeros 0 ++ be8Bytes (8 * len)

/-- Groups of four bytes read as big-endian 32-bit words. -/
def bytesToWords : List Nat → List Nat
  | b1 :: b2 :: b3 :: b4 :: rest =>
      ((((b1 <<< 8) ||| b2) <<< 8 ||| b3) <<< 8 ||| b4) :: bytesToWords rest
  | _ => []

/-- Splits a padded message into 64-byte blocks. -/
def toBlocks (l : List Nat) : List (List Nat) :=
  match l with
  | [] => []
  | x :: rest => (x :: rest).take 64 :: toBlocks ((x :: rest).drop 64)
termination_by l.length
decreasing_by
  simp only [List.length_cons, List.length_drop]
  omega

/-- One extension step of the message schedule, appending word
`ssig1 w(t-2) + w(t-7) + ssig0 w(t-15) + w(t-16)`. -/
def schedStep (ws : List Nat) : List Nat :=
  let k := ws.length
  ws ++ [(ssig1 (ws.getD (k - 2) 0) + ws.getD (k - 7) 0 +
          ssig0 (ws.getD (k - 15) 0) + ws.getD (k - 16) 0) % 4294967296]

/-- The 64-word message schedule grown from the 16 block words. -/
def sha256Schedule (ws : List Nat) : List Nat :=
  (List.range 48).foldl (fun acc _ => schedStep acc) ws

/-- One SHA-256 round, consuming one (word, constant) pair. -/
def roundStep (st : Hash8) (wk : Nat × Nat) : Hash8 :=
  let t1 := (st.h + bsig1 st.e + chFn st.e st.f st.g + wk.1 + wk.2) % 4294967296
  let t2 := (bsig0 st.a + majFn st.a st.b st.c) % 4294967296
  ⟨(t1 + t2) % 4294967296, st.a, st.b, st.c,
    (st.d + t1) % 4294967296, st.e, st.f, st.g⟩

/-- Compression of one 64-byte block into the running hash. -/
def compressBlock (st : Hash8) (block : List Nat) : Hash8 :=
  let ws := sha256Schedule (bytesToWords block)
  let r := (ws.zip sha256K).foldl roundStep st
  ⟨(st.a + r.a) % 4294967296, (st.b + r.b) % 4294967296,
    (st.c + r.c) % 4294967296, (st.d + r.d) % 4294967296,
    (st.e + r.e) % 4294967296, (st.f + r.f) % 4294967296,
    (st.g + r.g) % 4294967296, (st.h + r.h) % 4294967296⟩

/-- SHA-256 digest of a byte list, as 32 bytes. -/
def sha256Bytes (msg : List Nat) : List Nat :=
  let fin := (toBlocks (sha256Pad msg)).foldl compressBlock sha256Init
  be4Bytes fin.a ++ be4Bytes fin.b ++ be4Bytes fin.c ++ be4Bytes fin.d ++
    be4Bytes fin.e ++ be4Bytes fin.f ++ be4Bytes fin.g ++ be4Bytes fin.h

/-- Lowercase hexadecimal digit. -/
def hexChar (n : Nat) : Char :=
  match n with
  | 0 => '0' | 1 => '1' | 2 => '2' | 3 => '3' | 4 => '4' | 5 => '5'
  | 6 => '6' | 7 => '7' | 8 => '8' | 9 => '9' | 10 => 'a' | 11 => 'b'
  | 12 => 'c' | 13 => 'd' | 14 => 'e' | _ => 'f'

/-- Two hex characters of one byte. -/
def byteHex (b : Nat) : List Char := [hexChar (b / 16), hexChar (b % 16)]

/-- Hex digest string of a byte list, `hexdigest()`. -/
def sha256Hex (msg : List Nat) : String := ⟨(sha256Bytes msg).flatMap byteHex⟩

/-! ## Account deposits (`account_deposit.py`)

`deposit_amount` and `deposit_timestamp` are Python floats observable here
only through their `str()` rendering inside the signature string and the
persisted record; the structure therefore holds that textual form. -/

/-- The `AccountDeposit` object state. -/
structure AccountDeposit where
  alg : String
  type : String
  to_iban : String
  deposit_amount : String
  deposit_timestamp : String
deriving DecidableEq, Repr

/-- Constructor semantics of `AccountDeposit.__init__`: `alg` and `type` are
the constants, the timestamp is the construction-time clock value. -/
def AccountDeposit.make (iban amountRepr nowRepr : String) : AccountDeposit :=
  ⟨"SHA-256", "DEPOSIT", iban, amountRepr, nowRepr⟩

/-- The canonical signature string `_get_signature_string` composes (braces
written with escapes):
`"{alg:<ALG>,typ:<TYPE>,iban:<IBAN>,amount:<AMOUNT>,deposit_date:<TIMESTAMP>}"`. -/
def signatureString (d : AccountDeposit) : String :=
  "\x7balg:" ++ d.alg ++ ",typ:" ++ d.type ++ ",iban:" ++ d.to_iban ++
    ",amount:" ++ d.deposit_amount ++ ",deposit_date:" ++ d.deposit_timestamp ++ "\x7d"

/-- The `deposit_signature` property: hex SHA-256 of the canonical string's
bytes, recomputed from the current field values. -/
def deposit_signature (d : AccountDeposit) : String :=
  sha256Hex (utf8Bytes (signatureString d))

/-- The persisted deposit record, `AccountDeposit.to_json`. -/
structure DepositJson where
  alg : String
  type : String
  to_iban : String
  deposit_amount : String
  deposit_timestamp : String
  deposit_signature : String
deriving DecidableEq, Repr

/-- Embedding of `AccountDeposit.to_json`: field values and the signature
computed from the same current state. -/
def AccountDeposit.to_json (d : AccountDeposit) : DepositJson :=
  ⟨d.alg, d.type, d.to_iban, d.deposit_amount, d.deposit_timestamp,
    deposit_signature d⟩

/-! ## Deposits into accounts (`AccountManager.deposit_into_account`) -/

/-- File-system state the deposit operation touches: the input file and the
deposits store.  The input object is an association list; lookups take the
last binding of a key, as a Python dict built by `json.load` does. -/
structure DepositFS where
  inputFile : JsonFile (List (String × String))
  deposits : JsonFile (List DepositJson)
deriving DecidableEq, Repr

/-- Key lookup in a decoded JSON object (`input_data[key]`): the last
binding wins. -/
def jsonGet (kvs : List (String × String)) (k : String) : Option String :=
  (kvs.reverse.find? (fun p => p.1 == k)).map (fun p => p.2)

/-- The deposit amount pattern `^EUR [0-9]{4}\.[0-9]{2}` under `fullmatch`:
the six digit characters when the string has exactly that shape. -/
def depositAmountChars (s : String) :
    Option (Char × Char × Char × Char × Char × Char) :=
  match s.data with
  | ['E', 'U', 'R', ' ', a, b, c, d, '.', e, f] =>
      if [a, b, c, d, e, f].all isDigitChar then some (a, b, c, d, e, f)
      else none
  | _ => none

/-- Rendering `str(float(deposit_amount[4:]))` of an accepted `dddd.dd`
amount: leading integer zeros and trailing fraction zeros disappear, with at
least one digit kept on each side of the dot. -/
def floatReprOfDeposit (a b c d e f : Char) : String :=
  let ip := match [a, b, c, d].dropWhile (fun x => x == '0') with
    | [] => ['0']
    | l => l
  let fp := match stripTrailingZeros [e, f] with
    | [] => ['0']
    | l => l
  ⟨ip ++ '.' :: fp⟩

/-- Embedding of `AccountManager.deposit_into_account`: read the input file,
require the `IBAN` and `AMOUNT` keys, validate both values, build the
`AccountDeposit` (timestamped with the clock rendering `nowRepr`), append
its record to the deposits store (a missing store reads as empty), and
return the deposit signature. -/
def deposit_into_account (nowRepr : String) (fs : DepositFS) :
    DepositFS × Except AMError String :=
  match fs.inputFile with
  | .missing => (fs, .error .fileInputNotFound)
  | .malformed => (fs, .error .jsonDecodeError)
  | .content kvs =>
    match jsonGet kvs "IBAN", jsonGet kvs "AMOUNT" with
    | none, _ => (fs, .error .invalidKey)
    | _, none => (fs, .error .invalidKey)
    | some ibanIn, some amountIn =>
      match validate_iban ibanIn with
      | .error e => (fs, .error e)
      | .ok ibanOk =>
        match depositAmountChars amountIn with
        | none => (fs, .error .invalidDepositAmount)
        | some (a, b, c, d, e, f) =>
          if [a, b, c, d, e, f].all (fun x => x == '0') then
            (fs, .error .depositNotPositive)
          else
            let dep := AccountDeposit.make ibanOk (floatReprOfDeposit a b c d e f) nowRepr
            match fs.deposits with
            | .malformed => (fs, .error .jsonDecodeError)
            | .missing =>
                ({ fs with deposits := .content [dep.to_json] },
                  .ok (deposit_signature dep))
            | .content l =>
                ({ fs with deposits := .content (l ++ [dep.to_json]) },
                  .ok (deposit_signature dep))

/-! ## Transfer requests (`AccountManager.transfer_request`) -/

/-- Modelled from the spec: the `TransferRequest` record class (its file,
`transfer_request.py`, is not among the given sources; only its constructor
call, attribute reads and `to_json` use appear in `account_manager.py`).
Per spec section 3 it carries the six request fields; `transfer_amount` is
the decimal amount value. -/
structure TransferRequest where
  from_iban : String
  to_iban : String
  transfer_concept : String
  transfer_type : String
  transfer_date : String
  transfer_amount : Rat
deriving DecidableEq, Repr

/-- Modelled from the spec: `transfer_code` is a deterministic, hash-derived
identifier computed from the request's fields at construction (spec section
3); modelled as the hex SHA-256 of the joined fields. -/
def transfer_code (t : TransferRequest) : String :=
  sha256Hex (utf8Bytes (t.from_iban ++ "," ++ t.to_iban ++ "," ++
    t.transfer_concept ++ "," ++ t.transfer_type ++ "," ++ t.transfer_date ++
    "," ++ toString t.transfer_amount))

/-- The persisted transfer record (spec section 6 field list). -/
structure TransferJson where
  from_iban : String
  to_iban : String
  transfer_type : String
  transfer_date : String
  transfer_amount : Rat
  transfer_concept : String
  transfer_code : String
deriving DecidableEq, Repr

/-- Modelled from the spec: `TransferRequest.to_json` persists the six
fields and the derived code. -/
def TransferRequest.to_json (t : TransferRequest) : TransferJson :=
  ⟨t.from_iban, t.to_iban, t.transfer_type, t.transfer_date,
    t.transfer_amount, t.transfer_concept, transfer_code t⟩

/-- The duplicate test of the store loop: an existing record equals the new
request on all six transfer fields. -/
def matchesSix (r : TransferJson) (t : TransferRequest) : Bool :=
  r.from_iban == t.from_iban && r.to_iban == t.to_iban &&
  r.transfer_date == t.transfer_date && r.transfer_amount == t.transfer_amount &&
  r.transfer_concept == t.transfer_concept && r.transfer_type == t.transfer_type

/-- The transfer-type pattern `(ORDINARY|INMEDIATE|URGENT)` under
`fullmatch`. -/
def validateTransferType (s : String) : Bool :=
  s == "ORDINARY" || s == "INMEDIATE" || s == "URGENT"

/-- File-system state the transfer operation touches. -/
structure TransferFS where
  transfers : JsonFile (List TransferJson)
deriving DecidableEq, Repr

/-- The six arguments of `transfer_request`; the amount as the raw input
the validation parses. -/
structure TransferArgs where
  from_iban : String
  to_iban : String
  concept : String
  transfer_type : String
  date : String
  amount : String
deriving DecidableEq, Repr

/-- Embedding of `AccountManager.transfer_request`: the validations run in
the source's order, the first failure aborts with the store untouched; then
the store is read (missing reads as empty, invalid JSON is fatal), scanned
for a six-field duplicate, and rewritten once with the new record appended. -/
def transfer_request (today : SDate) (m : TransferArgs) (fs : TransferFS) :
    TransferFS × Except AMError String :=
  match validate_iban m.from_iban with
  | .error e => (fs, .error e)
  | .ok _ =>
  match validate_iban m.to_iban with
  | .error e => (fs, .error e)
  | .ok _ =>
  match validate_concept m.concept with
  | .error e => (fs, .error e)
  | .ok _ =>
  if !validateTransferType m.transfer_type then (fs, .error .invalidTransferType)
  else
  match validate_transfer_date today m.date with
  | .error e => (fs, .error e)
  | .ok _ =>
  match validateTransferAmount m.amount with
  | .error e => (fs, .error e)
  | .ok q =>
  let newT : TransferRequest :=
    ⟨m.from_iban, m.to_iban, m.concept, m.transfer_type, m.date, q⟩
  match fs.transfers with
  | .malformed => (fs, .error .jsonDecodeError)
  | .missing =>
      ({ transfers := .content [newT.to_json] }, .ok (transfer_code newT))
  | .content l =>
      if l.any (fun r => matchesSix r newT) then (fs, .error .duplicateTransfer)
      else ({ transfers := .content (l ++ [newT.to_json]) }, .ok (transfer_code newT))

/-! ## Balances (`AccountManager.calculate_balance`) -/

/-- A transaction record of the read-only transactions store. -/
structure TransactionRecord where
  iban : String
  amount : Rat
deriving DecidableEq, Repr

/-- A persisted balance snapshot. -/
structure BalanceSnapshot where
  iban : String
  time : Rat
  balance : Rat
deriving DecidableEq, Repr

/-- File-system state the balance operation touches: the read-only
transactions store and the balances store. -/
structure BalanceFS where
  transactions : JsonFile (List TransactionRecord)
  balances : JsonFile (List BalanceSnapshot)
deriving DecidableEq, Repr

/-- The accumulation loop of `calculate_balance`: running sum of amounts of
the transactions whose IBAN equals the input, and the found flag. -/
def balanceLoop (iban : String) : List TransactionRecord → Rat → Bool → Rat × Bool
  | [], acc, found => (acc, found)
  | t :: rest, acc, found =>
      if t.iban == iban then balanceLoop iban rest (acc + t.amount) true
      else balanceLoop iban rest acc found

/-- Sum of the amounts of the matching transactions (the claim's wording). -/
def matchingSum (iban : String) (txns : List TransactionRecord) : Rat :=
  ((txns.filter (fun t => t.iban == iban)).map (fun t => t.amount)).sum

/-- Embedding of `AccountManager.calculate_balance` (with
`read_transactions_file` inlined, as in the source): validate the IBAN, read
the transactions store — missing is the fatal wrong-file error, invalid JSON
fatal —, sum the matching amounts, fail if none matched, and append a
`BalanceSnapshot` to the balances store (missing reads as empty). -/
def calculate_balance (nowTime : Rat) (iban : String) (fs : BalanceFS) :
    BalanceFS × Except AMError Bool :=
  match validate_iban iban with
  | .error e => (fs, .error e)
  | .ok ibanOk =>
  match fs.transactions with
  | .missing => (fs, .error .wrongFilePath)
  | .malformed => (fs, .error .jsonDecodeError)
  | .content txns =>
    let r := balanceLoop ibanOk txns 0 false
    if !r.2 then (fs, .error .ibanNotFound)
    else
      let snap : BalanceSnapshot := ⟨ibanOk, nowTime, r.1⟩
      match fs.balances with
      | .malformed => (fs, .error .jsonDecodeError)
      | .missing => ({ fs with balances := .content [snap] }, .ok true)
      | .content bl =>
          ({ fs with balances := .content (bl ++ [snap]) }, .ok true)

/-- Decidable equality of results, for evaluating concrete runs. -/
instance {e a : Type} [DecidableEq e] [DecidableEq a] : DecidableEq (Except e a) :=
  fun x y =>
    match x, y with
    | .ok u, .ok v =>
        if h : u = v then isTrue (by rw [h]) else isFalse (by simp [h])
    | .error u, .error v =>
        if h : u = v then isTrue (by rw [h]) else isFalse (by simp [h])
    | .ok _, .error _ => isFalse (by simp)
    | .error _, .ok _ => isFalse (by simp)

/-! ## Helper lemmas -/

/-- Value round-trip for rendered digits 0..9. -/
theorem digitVal_renderDigit (k : Nat) (h : k ≤ 9) :
    digitVal (renderDigit k) = k := by
  interval_cases k <;> rfl

/-- A rendered digit 0..9 is a digit character. -/
theorem isDigitChar_renderDigit (k : Nat) (h : k ≤ 9) :
    isDigitChar (renderDigit k) = true := by
  interval_cases k <;> rfl

/-- C1: for every string, `validate_iban` fails with the invalid-format
error exactly when the string is not `ES` followed by 22 digits; on a
format-matching string it returns the input unchanged when
`98 - (rearranged, letter-substituted value mod 97)` equals the two-digit
check code read at positions [2, 4), and fails with the control-digit error
otherwise; and an IBAN whose check digits were generated by that same
formula (`mkIbanEs`) always validates successfully. -/
theorem c1_iban_validation (s : String) :
    (ibanFormatOk s.data = false → validate_iban s = .error .invalidIbanFormat) ∧
    (ibanFormatOk s.data = true →
      (checkCodeOf s.data = 98 - rearrangedValue s.data % 97 →
        validate_iban s = .ok s) ∧
      (checkCodeOf s.data ≠ 98 - rearrangedValue s.data % 97 →
        validate_iban s = .error .invalidIbanControl)) ∧
    (∀ tail : List Char, tail.length = 20 → tail.all isDigitChar = true →
      validate_iban (mkIbanEs tail) = .ok (mkIbanEs tail)) := by
  refine ⟨fun h => by simp [validate_iban, h], fun h => ⟨fun he => by
    simp [validate_iban, h, he], fun hne => by simp [validate_iban, h, hne]⟩,
    fun tail hlen hdig => ?_⟩
  set n := 98 - tailRearrangedValue tail % 97 with hn
  have hdata : (mkIbanEs tail).data =
      'E' :: 'S' :: renderDigit (n / 10) :: renderDigit (n % 10) :: tail := rfl
  have hmod : tailRearrangedValue tail % 97 ≤ 96 := by
    have := Nat.mod_lt (tailRearrangedValue tail) (show 0 < 97 by norm_num)
    omega
  have h10 : n / 10 ≤ 9 := by omega
  have h1 : n % 10 ≤ 9 := by omega
  have hfmt : ibanFormatOk (mkIbanEs tail).data = true := by
    rw [hdata]
    simp [ibanFormatOk, hlen, isDigitChar_renderDigit _ h10,
      isDigitChar_renderDigit _ h1, hdig]
  have hcc : checkCodeOf (mkIbanEs tail).data = n := by
    rw [hdata]
    show numFromDigits ([renderDigit (n / 10), renderDigit (n % 10)].map digitVal) = n
    simp [numFromDigits, digitVal_renderDigit _ h10, digitVal_renderDigit _ h1]
    omega
  have hrv : rearrangedValue (mkIbanEs tail).data = tailRearrangedValue tail := by
    rw [hdata]; rfl
  simp [validate_iban, hfmt, hcc, hrv]

/-- C5: for every `AccountDeposit`, `deposit_signature` is the hex SHA-256
digest of the canonical string
`"{alg:<ALG>,typ:<TYPE>,iban:<IBAN>,amount:<AMOUNT>,deposit_date:<TIMESTAMP>}"`
built from the current field values; hence two deposits with identical
(alg, type, to_iban, deposit_amount, deposit_timestamp) values produce
identical signatures. -/
theorem c5_deposit_signature (d : AccountDeposit) :
    deposit_signature d =
      sha256Hex (utf8Bytes ("\x7balg:" ++ d.alg ++ ",typ:" ++ d.type ++
        ",iban:" ++ d.to_iban ++ ",amount:" ++ d.deposit_amount ++
        ",deposit_date:" ++ d.deposit_timestamp ++ "\x7d")) ∧
    (∀ d2 : AccountDeposit, d.alg = d2.alg → d.type = d2.type →
      d.to_iban = d2.to_iban → d.deposit_amount = d2.deposit_amount →
      d.deposit_timestamp = d2.deposit_timestamp →
      deposit_signature d = deposit_signature d2) := by
  refine ⟨rfl, fun d2 h1 h2 h3 h4 h5 => ?_⟩
  cases d
  cases d2
  simp_all

/-- C9: whenever `transfer_request` fails with an exception — a field
validation failure, the duplicate check, or a malformed transfers store —
the transfers store is left unchanged; the single write happens only after
every validation and the full duplicate scan have passed. -/
theorem c9_transfer_error_frame (today : SDate) (m : TransferArgs)
    (fs fs' : TransferFS) (e : AMError)
    (h : transfer_request today m fs = (fs', .error e)) : fs' = fs := by
  unfold transfer_request at h
  repeat' (first | split at h | simp only [] at h)
  all_goals simp_all

/-- An IBAN validation failure is the format error or the control-digit
error, never another reason. -/
theorem validate_iban_error_shape (s : String) (e : AMError)
    (h : validate_iban s = .error e) :
    e = .invalidIbanFormat ∨ e = .invalidIbanControl := by
  unfold validate_iban at h
  split at h
  · split at h
    · exact Except.noConfusion h
    · injection h with h2
      exact Or.inr h2.symm
  · injection h with h2
    exact Or.inl h2.symm

/-- C10: every successful `deposit_into_account` call returns exactly the
`deposit_signature` stored in the record it appended to the deposits store;
both come from the same unmutated `AccountDeposit` state. -/
theorem c10_deposit_signature_consistency (nowRepr : String) (fs : DepositFS)
    (h : (deposit_into_account nowRepr fs).2.isOk = true) :
    ∃ prev rec,
      ((deposit_into_account nowRepr fs).1).deposits = .content (prev ++ [rec]) ∧
      (deposit_into_account nowRepr fs).2 = .ok rec.deposit_signature := by
  unfold deposit_into_account at h ⊢
  repeat' (first | split at h | simp only [] at h)
  all_goals simp_all [Except.isOk, Except.toBool]
  · rename_i hzero _
    rw [if_neg (fun hc => hzero hc.1 hc.2.1 hc.2.2.1 hc.2.2.2.1 hc.2.2.2.2.1 hc.2.2.2.2.2)]
    exact ⟨[], _, rfl, rfl⟩
  · rename_i _ hzero _
    rw [if_neg (fun hc => hzero hc.1 hc.2.1 hc.2.2.1 hc.2.2.2.1 hc.2.2.2.2.1 hc.2.2.2.2.2)]
    exact ⟨_, _, rfl, rfl⟩

/-- C2 (amended): for an input file decoding as a JSON object,
`deposit_into_account` fails with the invalid-key error exactly when the
`IBAN` key or the `AMOUNT` key is missing; extra keys do not cause the
failure. -/
theorem c2_deposit_key_check (nowRepr : String) (fs : DepositFS)
    (kvs : List (String × String)) (hin : fs.inputFile = .content kvs) :
    (deposit_into_account nowRepr fs).2 = .error .invalidKey ↔
      (jsonGet kvs "IBAN" = none ∨ jsonGet kvs "AMOUNT" = none) := by
  unfold deposit_into_account
  rw [hin]
  rcases hI : jsonGet kvs "IBAN" with _ | ibanIn
  · simp [hI]
  rcases hA : jsonGet kvs "AMOUNT" with _ | amountIn
  · simp [hI, hA]
  simp only [hI, hA, Option.some.injEq, reduceCtorEq, or_self, iff_false]
  rcases hv : validate_iban ibanIn with e | ibanOk
  · rcases validate_iban_error_shape _ _ hv with rfl | rfl <;> simp
  rcases hac : depositAmountChars amountIn with _ | ⟨a, b, c, d, e, f⟩
  · simp
  by_cases hz : [a, b, c, d, e, f].all (fun x => x == '0')
  · simp [hz]
  rcases hdep : fs.deposits with _ | _ | l <;> simp [hz, hdep]

/-- A request's own persisted record agrees with it on all six duplicate
fields. -/
theorem matchesSix_to_json (t : TransferRequest) :
    matchesSix t.to_json t = true := by
  simp [matchesSix, TransferRequest.to_json]

/-- C4: with a readable transfers store and all field validations passing,
`transfer_request` fails with the duplicate error and appends nothing
exactly when some stored record agrees with the request on all six fields
{from_iban, to_iban, transfer_date, transfer_amount, transfer_concept,
transfer_type}; when every stored record differs in at least one of the six
fields, the call succeeds and appends the new record; in particular a
second, identical submission right after a successful one fails as a
duplicate and leaves the store as the first call wrote it. -/
theorem c4_transfer_duplicate_detection (today : SDate) (m : TransferArgs)
    (fs : TransferFS) (l : List TransferJson)
    (hst : fs.transfers = .content l)
    (h1 : validate_iban m.from_iban = .ok m.from_iban)
    (h2 : validate_iban m.to_iban = .ok m.to_iban)
    (h3 : validate_concept m.concept = .ok ())
    (h4 : validateTransferType m.transfer_type = true)
    (h5 : validate_transfer_date today m.date = .ok m.date)
    (q : Rat) (h6 : validateTransferAmount m.amount = .ok q) :
    ((∃ r ∈ l, matchesSix r ⟨m.from_iban, m.to_iban, m.concept,
        m.transfer_type, m.date, q⟩ = true) →
      transfer_request today m fs = (fs, .error .duplicateTransfer)) ∧
    ((∀ r ∈ l, matchesSix r ⟨m.from_iban, m.to_iban, m.concept,
        m.transfer_type, m.date, q⟩ = false) →
      transfer_request today m fs =
        (⟨.content (l ++ [TransferRequest.to_json ⟨m.from_iban, m.to_iban,
          m.concept, m.transfer_type, m.date, q⟩])⟩,
          .ok (transfer_code ⟨m.from_iban, m.to_iban, m.concept,
            m.transfer_type, m.date, q⟩))) ∧
    ((∀ r ∈ l, matchesSix r ⟨m.from_iban, m.to_iban, m.concept,
        m.transfer_type, m.date, q⟩ = false) →
      transfer_request today m (transfer_request today m fs).1 =
        ((transfer_request today m fs).1, .error .duplicateTransfer)) := by
  have hrun : ∀ fs2 : TransferFS, ∀ l2 : List TransferJson,
      fs2.transfers = .content l2 →
      transfer_request today m fs2 =
        (if l2.any (fun r => matchesSix r ⟨m.from_iban, m.to_iban, m.concept,
            m.transfer_type, m.date, q⟩) then (fs2, .error .duplicateTransfer)
         else (⟨.content (l2 ++ [TransferRequest.to_json ⟨m.from_iban,
            m.to_iban, m.concept, m.transfer_type, m.date, q⟩])⟩,
            .ok (transfer_code ⟨m.from_iban, m.to_iban, m.concept,
              m.transfer_type, m.date, q⟩))) := by
    intro fs2 l2 hst2
    unfold transfer_request
    rw [h1, h2, h3, h4, h5, h6, hst2]
    simp
  refine ⟨fun hdup => ?_, fun hnone => ?_, fun hnone => ?_⟩
  · rw [hrun fs l hst, if_pos]
    rw [List.any_eq_true]
    rcases hdup with ⟨r, hr, hm⟩
    exact ⟨r, hr, hm⟩
  · rw [hrun fs l hst, if_neg]
    rw [List.any_eq_true]
    rintro ⟨r, hr, hm⟩
    rw [hnone r hr] at hm
    exact Bool.false_ne_true hm
  · have hfirst : transfer_request today m fs =
        (⟨.content (l ++ [TransferRequest.to_json ⟨m.from_iban, m.to_iban,
          m.concept, m.transfer_type, m.date, q⟩])⟩,
          .ok (transfer_code ⟨m.from_iban, m.to_iban, m.concept,
            m.transfer_type, m.date, q⟩)) := by
      rw [hrun fs l hst, if_neg]
      rw [List.any_eq_true]
      rintro ⟨r, hr, hm⟩
      rw [hnone r hr] at hm
      exact Bool.false_ne_true hm
    rw [hfirst]
    rw [hrun _ _ rfl, if_pos]
    rw [List.any_eq_true]
    exact ⟨_, List.mem_append_right _ (List.mem_singleton_self _),
      matchesSix_to_json _⟩

/-- The accumulation loop computes the matching sum and the found flag is
the existence of a matching transaction. -/
theorem balanceLoop_spec (iban : String) (txns : List TransactionRecord)
    (acc : Rat) (found : Bool) :
    balanceLoop iban txns acc found =
      (acc + matchingSum iban txns,
        found || txns.any (fun t => t.iban == iban)) := by
  induction txns generalizing acc found with
  | nil => simp [balanceLoop, matchingSum]
  | cons t rest ih =>
      by_cases h : t.iban == iban
      · simp only [balanceLoop, h, if_true, ih, matchingSum, List.filter_cons,
          List.map_cons, List.sum_cons, List.any_cons, Bool.true_or, Bool.or_true]
        rw [add_assoc]
      · have hb : (t.iban == iban) = false := by
          exact Bool.not_eq_true _ ▸ (by simpa using h)
        simp [balanceLoop, hb, ih, matchingSum, List.filter_cons]

/-- C6: for a valid IBAN, `calculate_balance` on a missing transactions
store is the fatal wrong-file error (never treated as empty); on a readable
store it fails with the IBAN-not-found error exactly when no transaction's
IBAN equals the input, and otherwise succeeds appending a snapshot whose
BALANCE is the sum of exactly the matching transactions' amounts (so
matching transactions summing to zero still succeed). -/
theorem c6_calculate_balance (nowTime : Rat) (iban : String) (fs : BalanceFS)
    (hv : validate_iban iban = .ok iban) :
    (fs.transactions = .missing →
      calculate_balance nowTime iban fs = (fs, .error .wrongFilePath)) ∧
    (∀ txns, fs.transactions = .content txns →
      ((txns.filter (fun t => t.iban == iban) = []) →
        calculate_balance nowTime iban fs = (fs, .error .ibanNotFound)) ∧
      (txns.filter (fun t => t.iban == iban) ≠ [] →
        (∀ bl, fs.balances = .content bl →
          calculate_balance nowTime iban fs =
            ({ fs with
                balances := JsonFile.content (bl ++ [⟨iban, nowTime, matchingSum iban txns⟩]) },
              .ok true)) ∧
        (fs.balances = .missing →
          calculate_balance nowTime iban fs =
            ({ fs with
                balances := JsonFile.content [⟨iban, nowTime, matchingSum iban txns⟩] },
              .ok true)))) := by
  constructor
  · intro hmiss
    unfold calculate_balance
    rw [hv, hmiss]
  · intro txns htx
    have hloop := balanceLoop_spec iban txns 0 false
    have hfilter : (txns.filter (fun t => t.iban == iban) = []) ↔
        txns.any (fun t => t.iban == iban) = false := by
      rw [List.filter_eq_nil_iff, List.any_eq_false]
    constructor
    · intro hnone
      unfold calculate_balance
      rw [hv, htx]
      simp only [hloop, hfilter.mp hnone, Bool.false_or, zero_add]
      rfl
    · intro hsome
      have hany : txns.any (fun t => t.iban == iban) = true := by
        rcases hb : txns.any (fun t => t.iban == iban) with _ | _
        · exact absurd (hfilter.mpr hb) hsome
        · rfl
      constructor
      · intro bl hbl
        unfold calculate_balance
        rw [hv, htx]
        simp only [hloop, hany, Bool.false_or, zero_add, Bool.not_true]
        rw [if_neg (by simp)]
        rw [hbl]
      · intro hbm
        unfold calculate_balance
        rw [hv, htx]
        simp only [hloop, hany, Bool.false_or, zero_add, Bool.not_true]
        rw [if_neg (by simp)]
        rw [hbm]

/-- Dates do not precede themselves. -/
theorem dateBefore_irrefl (d : SDate) : dateBefore d d = false := by
  simp [dateBefore]

/-- C7: `validate_transfer_date` fails with the invalid-date-format error
unless the string matches `DD/MM/YYYY` with day 00-31, month 00-12 and
parses as a real calendar date; on well-formed dates it fails with the
date-in-past error when the parsed date is strictly before the current UTC
date, then with the invalid-date-format error when the year is outside
[2025, 2050]; a well-formed date equal to the current UTC date (with the
current year in range) succeeds. -/
theorem c7_transfer_date_validation (today : SDate) (s : String) :
    ((dateRegexOk s.data = false ∨ calendarOk (parseDMY s.data) = false) →
      validate_transfer_date today s = .error .invalidDateFormat) ∧
    (dateRegexOk s.data = true → calendarOk (parseDMY s.data) = true →
      dateBefore (parseDMY s.data) today = true →
      validate_transfer_date today s = .error .dateInPast) ∧
    (dateRegexOk s.data = true → calendarOk (parseDMY s.data) = true →
      dateBefore (parseDMY s.data) today = false →
      ((parseDMY s.data).y < 2025 ∨ 2050 < (parseDMY s.data).y) →
      validate_transfer_date today s = .error .invalidDateFormat) ∧
    (dateRegexOk s.data = true → calendarOk (parseDMY s.data) = true →
      dateBefore (parseDMY s.data) today = false →
      2025 ≤ (parseDMY s.data).y → (parseDMY s.data).y ≤ 2050 →
      validate_transfer_date today s = .ok s) ∧
    (dateRegexOk s.data = true → calendarOk (parseDMY s.data) = true →
      parseDMY s.data = today → 2025 ≤ today.y → today.y ≤ 2050 →
      validate_transfer_date today s = .ok s) := by
  refine ⟨fun h => ?_, fun h1 h2 h3 => ?_, fun h1 h2 h3 h4 => ?_,
    fun h1 h2 h3 h4 h5 => ?_, fun h1 h2 h3 h4 h5 => ?_⟩
  · rcases h with h | h
    · simp [validate_transfer_date, h]
    · rcases hr : dateRegexOk s.data with _ | _
      · simp [validate_transfer_date, hr]
      · simp [validate_transfer_date, hr, h]
  · simp [validate_transfer_date, h1, h2, h3]
  · rcases h4 with h4 | h4 <;>
      simp [validate_transfer_date, h1, h2, h3, h4]
  · have hy : ((parseDMY s.data).y < 2025 ∨ 2050 < (parseDMY s.data).y) = False := by
      simp
      omega
    simp [validate_transfer_date, h1, h2, h3, hy]
  · subst h3
    simp [validate_transfer_date, h1, h2, dateBefore_irrefl]
    omega

/-- C3 (amended): the amount validation accepts exactly the inputs that
parse as plain decimal literals whose value needs at most two fractional
digits in its shortest decimal rendering (the code counts the digits of
`str(float(x))`, which drops trailing zeros) and lies within [10, 10000];
the claim's four examples behave as stated. -/
theorem c3_amount_validation :
    (∀ s : String, (validateTransferAmount s).isOk = specAmountOk s) ∧
    validateTransferAmount "10000.01" = .error .invalidAmount ∧
    validateTransferAmount "9.99" = .error .invalidAmount ∧
    validateTransferAmount "10.005" = .error .invalidAmount ∧
    validateTransferAmount "10.00" = .ok 10 := by
  refine ⟨fun s => ?_, by decide, by decide, by decide, by decide⟩
  rcases hp : parseDecimal s with _ | ⟨q, k⟩
  · simp [validateTransferAmount, specAmountOk, hp, Except.isOk, Except.toBool]
  · simp only [validateTransferAmount, specAmountOk, hp]
    split_ifs with hk hq
    · have h2 : ¬ k ≤ 2 := by omega
      simp [Except.isOk, Except.toBool, h2]
    · rcases hq with hq | hq
      · simp [Except.isOk, Except.toBool, not_le.mpr hq]
      · simp [Except.isOk, Except.toBool, not_le.mpr hq]
    · push_neg at hq
      have h2 : k ≤ 2 := by omega
      simp [Except.isOk, Except.toBool, h2, hq.1, hq.2]

/-- C3 (counterexample): the input "10.100" has three fractional digits as
written, yet the amount validation accepts it (the code counts the digits
of `str(float("10.100"))`, which is "10.1"); so failing is not equivalent to
the written input having more than two fractional digits. -/
theorem c3_frac_digits_counterexample :
    2 < writtenFracDigits "10.100" ∧
    validateTransferAmount "10.100" = .ok (mkRat 101 10) := by
  constructor
  · decide
  · rfl

/-- Every character a takeWhile keeps satisfies the predicate. -/
theorem all_takeWhile_self (p : Char → Bool) (l : List Char) :
    (l.takeWhile p).all p = true := by
  induction l with
  | nil => rfl
  | cons a t ih =>
      rw [List.takeWhile_cons]
      by_cases h : p a
      · simp [h, ih]
      · simp [h]

/-- takeWhile and dropWhile across a prepended run that satisfies the
predicate throughout. -/
theorem takeWhile_append_all (p : Char → Bool) (w t : List Char)
    (hw : w.all p = true) :
    (w ++ t).takeWhile p = w ++ t.takeWhile p ∧
    (w ++ t).dropWhile p = t.dropWhile p := by
  induction w with
  | nil => simp
  | cons a w ih =>
      simp only [List.all_cons, Bool.and_eq_true] at hw
      simp [List.takeWhile_cons, List.dropWhile_cons, hw.1, ih hw.2]

/-- A whitespace character is never alphabetic. -/
theorem space_not_alpha (c : Char) (h : isSpaceChar c = true) :
    isAlphaChar c = false := by
  simp only [isSpaceChar, Bool.or_eq_true, beq_iff_eq] at h
  rcases h with ((((h | h) | h) | h) | h) | h <;> subst h <;> decide

/-- The last element of a nonempty list all of whose elements satisfy a
predicate satisfies it. -/
theorem getLast_all (p : Char → Bool) (w : List Char) (hne : w ≠ [])
    (hall : w.all p = true) :
    ∃ c, w.getLast? = some c ∧ p c = true := by
  induction w with
  | nil => exact absurd rfl hne
  | cons a t ih =>
      simp only [List.all_cons, Bool.and_eq_true] at hall
      rcases ht : t with _ | ⟨b, t2⟩
      · exact ⟨a, rfl, hall.1⟩
      · rcases ih (by simp [ht]) (ht ▸ hall.2) with ⟨c, hc, hpc⟩
        refine ⟨c, ?_, hpc⟩
        rw [List.getLast?_cons_cons]
        rw [ht] at hc
        exact hc

/-- Dropping a prefix by a predicate never lengthens a list. -/
theorem length_dropWhile_le_self (p : Char → Bool) (l : List Char) :
    (l.dropWhile p).length ≤ l.length := by
  induction l with
  | nil => simp [List.dropWhile]
  | cons a t ih =>
      rw [List.dropWhile_cons]
      by_cases hp : p a
      · simp only [hp, if_true, List.length_cons]
        omega
      · simp [hp]

/-- Decomposition direction of the separator-words characterisation: an
accepted list is an interleaving of single whitespace separators with
nonempty alphabetic runs. -/
theorem sepWordsAux_decomp : ∀ (fuel : Nat) (l : List Char), l.length ≤ fuel →
    sepWordsAux fuel l = true →
    ∃ rest : List (Char × List Char),
      l = rest.flatMap (fun p => p.1 :: p.2) ∧
      ∀ p ∈ rest, isSpaceChar p.1 = true ∧ p.2 ≠ [] ∧
        p.2.all isAlphaChar = true := by
  intro fuel
  induction fuel with
  | zero =>
      intro l hl _
      have hnil : l = [] := List.length_eq_zero.mp (Nat.le_zero.mp hl)
      subst hnil
      exact ⟨[], rfl, by simp⟩
  | succ f ih =>
      intro l hl h
      rcases l with _ | ⟨c, rest⟩
      · exact ⟨[], rfl, by simp⟩
      · simp only [sepWordsAux, Bool.and_eq_true] at h
        rcases h with ⟨⟨hc, hw⟩, hrec⟩
        have hlen2 : (rest.dropWhile isAlphaChar).length ≤ f := by
          have := length_dropWhile_le_self isAlphaChar rest
          simp only [List.length_cons] at hl
          omega
        rcases ih _ hlen2 hrec with ⟨rest2, hflat, hall2⟩
        refine ⟨(c, rest.takeWhile isAlphaChar) :: rest2, ?_, ?_⟩
        · simp only [List.flatMap_cons, List.cons_append]
          rw [← hflat, List.takeWhile_append_dropWhile]
        · intro p hp
          rcases List.mem_cons.mp hp with rfl | hp2
          · refine ⟨hc, ?_, all_takeWhile_self _ _⟩
            intro hemp
            simp only at hemp
            rw [hemp] at hw
            simp at hw
          · exact hall2 p hp2

/-- Construction direction of the separator-words characterisation: every
interleaving of single whitespace separators with nonempty alphabetic runs
is accepted (with enough fuel). -/
theorem sepWordsAux_build : ∀ (rest : List (Char × List Char)) (fuel : Nat),
    (rest.flatMap (fun p => p.1 :: p.2)).length ≤ fuel →
    (∀ p ∈ rest, isSpaceChar p.1 = true ∧ p.2 ≠ [] ∧
      p.2.all isAlphaChar = true) →
    sepWordsAux fuel (rest.flatMap (fun p => p.1 :: p.2)) = true := by
  intro rest
  induction rest with
  | nil =>
      intro fuel _ _
      rcases fuel with _ | f <;> rfl
  | cons p rest2 ih =>
      intro fuel hlen hall
      have hp := hall p (List.mem_cons_self p rest2)
      rcases fuel with _ | f
      · exfalso
        simp only [List.flatMap_cons, List.cons_append, List.length_cons] at hlen
        omega
      · have htail : (rest2.flatMap (fun p => p.1 :: p.2)).takeWhile isAlphaChar
              = [] ∧
            (rest2.flatMap (fun p => p.1 :: p.2)).dropWhile isAlphaChar
              = rest2.flatMap (fun p => p.1 :: p.2) := by
          rcases rest2 with _ | ⟨p2, rest3⟩
          · exact ⟨rfl, rfl⟩
          · have hp2 := hall p2 (by simp)
            simp only [List.flatMap_cons, List.cons_append]
            rw [List.takeWhile_cons, List.dropWhile_cons]
            simp [space_not_alpha _ hp2.1]
        have happ := takeWhile_append_all isAlphaChar p.2
          (rest2.flatMap (fun q => q.1 :: q.2)) hp.2.2
        simp only [List.flatMap_cons, List.cons_append]
        simp only [sepWordsAux, Bool.and_eq_true]
        refine ⟨⟨hp.1, ?_⟩, ?_⟩
        · rw [happ.1, htail.1, List.append_nil]
          simpa using hp.2.1
        · rw [happ.2, htail.2]
          have hlen2 : (rest2.flatMap (fun q => q.1 :: q.2)).length ≤ f := by
            simp only [List.flatMap_cons, List.cons_append, List.length_cons,
              List.length_append] at hlen
            omega
          exact ih f hlen2 (fun q hq => hall q (List.mem_cons_of_mem p hq))

/-- Characterisation of the separator-words recognizer: it accepts exactly
the interleavings of single whitespace separators with nonempty alphabetic
runs. -/
theorem sepWordsMatch_iff (l : List Char) :
    sepWordsMatch l = true ↔
      ∃ rest : List (Char × List Char),
        l = rest.flatMap (fun p => p.1 :: p.2) ∧
        ∀ p ∈ rest, isSpaceChar p.1 = true ∧ p.2 ≠ [] ∧
          p.2.all isAlphaChar = true := by
  constructor
  · exact sepWordsAux_decomp l.length l le_rfl
  · rintro ⟨rest, rfl, hall⟩
    exact sepWordsAux_build rest _ le_rfl hall

/-- An interleaving of separators and words either is empty or starts with a
whitespace character, so an alphabetic takeWhile takes nothing from it. -/
theorem flat_sep_head (rest : List (Char × List Char))
    (hall : ∀ p ∈ rest, isSpaceChar p.1 = true ∧ p.2 ≠ [] ∧
      p.2.all isAlphaChar = true) :
    (rest.flatMap (fun p => p.1 :: p.2)).takeWhile isAlphaChar = [] ∧
    (rest.flatMap (fun p => p.1 :: p.2)).dropWhile isAlphaChar =
      rest.flatMap (fun p => p.1 :: p.2) := by
  rcases rest with _ | ⟨p2, rest3⟩
  · exact ⟨rfl, rfl⟩
  · have hp2 := hall p2 (by simp)
    simp only [List.flatMap_cons, List.cons_append]
    rw [List.takeWhile_cons, List.dropWhile_cons]
    simp [space_not_alpha _ hp2.1]

/-- The regex body recognizer accepts exactly the strings the claim
describes: at least two nonempty alphabetic runs, consecutive runs
separated by one whitespace character. -/
theorem conceptBodyMatch_iff (l : List Char) :
    conceptBodyMatch l = true ↔ isConceptWords l := by
  constructor
  · intro h
    simp only [conceptBodyMatch, Bool.and_eq_true] at h
    rcases h with ⟨⟨htw, hdw⟩, hsep⟩
    rcases (sepWordsMatch_iff _).mp hsep with ⟨rest, hflat, hall⟩
    refine ⟨l.takeWhile isAlphaChar, rest, ?_, ?_, all_takeWhile_self _ _, ?_, hall⟩
    · rw [joinWords, ← hflat, List.takeWhile_append_dropWhile]
    · intro hemp
      rw [hemp] at htw
      simp at htw
    · intro hemp
      subst hemp
      rw [List.flatMap_nil] at hflat
      rw [hflat] at hdw
      simp at hdw
  · rintro ⟨w0, rest, rfl, hw0, hw0a, hrne, hall⟩
    have hfne : rest.flatMap (fun p => p.1 :: p.2) ≠ [] := by
      rcases rest with _ | ⟨p, r⟩
      · exact absurd rfl hrne
      · simp [List.flatMap_cons]
    have happ := takeWhile_append_all isAlphaChar w0
      (rest.flatMap (fun p => p.1 :: p.2)) hw0a
    have htail := flat_sep_head rest hall
    simp only [conceptBodyMatch, joinWords, Bool.and_eq_true]
    refine ⟨⟨?_, ?_⟩, ?_⟩
    · rw [happ.1, htail.1, List.append_nil]
      simpa using hw0
    · rw [happ.2, htail.2]
      simpa using hfne
    · rw [happ.2, htail.2]
      exact (sepWordsMatch_iff _).mpr ⟨rest, rfl, hall⟩

/-- The last character of a nonempty separator-word interleaving is
alphabetic. -/
theorem flat_last_alpha : ∀ rest : List (Char × List Char), rest ≠ [] →
    (∀ p ∈ rest, isSpaceChar p.1 = true ∧ p.2 ≠ [] ∧
      p.2.all isAlphaChar = true) →
    ∃ c, (rest.flatMap (fun p => p.1 :: p.2)).getLast? = some c ∧
      isAlphaChar c = true := by
  intro rest
  induction rest with
  | nil =>
      intro h _
      exact absurd rfl h
  | cons p rest2 ih =>
      intro _ hall
      by_cases h2 : rest2 = []
      · subst h2
        have hp := hall p (by simp)
        rcases getLast_all isAlphaChar p.2 hp.2.1 hp.2.2 with ⟨c, hc, hpc⟩
        refine ⟨c, ?_, hpc⟩
        simp only [List.flatMap_cons, List.flatMap_nil, List.append_nil]
        rw [show p.1 :: p.2 = [p.1] ++ p.2 from rfl,
          List.getLast?_append_of_ne_nil _ hp.2.1]
        exact hc
      · have hflatne : rest2.flatMap (fun p => p.1 :: p.2) ≠ [] := by
          rcases rest2 with _ | ⟨p2, r3⟩
          · exact absurd rfl h2
          · simp [List.flatMap_cons]
        rcases ih h2 (fun q hq => hall q (List.mem_cons_of_mem p hq)) with
          ⟨c, hc, hpc⟩
        refine ⟨c, ?_, hpc⟩
        simp only [List.flatMap_cons]
        rw [List.getLast?_append_of_ne_nil _ hflatne]
        exact hc

/-- A string of the claim's concept shape ends in an alphabetic character. -/
theorem isConceptWords_last_alpha (l : List Char) (h : isConceptWords l) :
    ∃ c, l.getLast? = some c ∧ isAlphaChar c = true := by
  rcases h with ⟨w0, rest, rfl, hw0, hw0a, hrne, hall⟩
  have hfne : rest.flatMap (fun p => p.1 :: p.2) ≠ [] := by
    rcases rest with _ | ⟨p, r⟩
    · exact absurd rfl hrne
    · simp [List.flatMap_cons]
  rcases flat_last_alpha rest hrne hall with ⟨c, hc, hpc⟩
  refine ⟨c, ?_, hpc⟩
  rw [joinWords, List.getLast?_append_of_ne_nil _ hfne]
  exact hc

/-- C8 (amended): `validate_concept` succeeds exactly when the string has
length 10 to 30, contains no newline (the length lookahead's dot cannot
match one), and consists of at least two runs of alphabetic characters with
consecutive runs separated by exactly one whitespace character. -/
theorem c8_concept_validation (s : String) :
    validate_concept s = .ok () ↔
      (10 ≤ s.data.length ∧ s.data.length ≤ 30 ∧
        (∀ c ∈ s.data, c ≠ '\n') ∧ isConceptWords s.data) := by
  unfold validate_concept
  constructor
  · intro h
    have hcond : (conceptLookahead s.data && conceptBodyMatch s.data) = true := by
      by_contra hc
      rw [if_neg] at h
      · cases h
      · simpa using hc
    rw [Bool.and_eq_true] at hcond
    have hbody := (conceptBodyMatch_iff _).mp hcond.2
    have hlook := hcond.1
    simp only [conceptLookahead, Bool.or_eq_true] at hlook
    rcases hlook with hl | hl
    · simp only [Bool.and_eq_true, decide_eq_true_eq] at hl
      refine ⟨hl.1.1, hl.1.2, ?_, hbody⟩
      intro c hc
      have := List.all_eq_true.mp hl.2 c hc
      simpa using this
    · rcases hgl : s.data.getLast? with _ | c
      · rw [hgl] at hl
        cases hl
      · rw [hgl] at hl
        simp only [Bool.and_eq_true, beq_iff_eq] at hl
        rcases isConceptWords_last_alpha _ hbody with ⟨c2, hc2, ha⟩
        rw [hgl] at hc2
        injection hc2 with hc2
        rw [← hc2, hl.1.1.1] at ha
        exact absurd ha (by decide)
  · rintro ⟨h10, h30, hnl, hwords⟩
    have hcond : (conceptLookahead s.data && conceptBodyMatch s.data) = true := by
      rw [Bool.and_eq_true]
      refine ⟨?_, (conceptBodyMatch_iff _).mpr hwords⟩
      simp only [conceptLookahead, Bool.or_eq_true]
      left
      simp only [Bool.and_eq_true, decide_eq_true_eq]
      refine ⟨⟨h10, h30⟩, ?_⟩
      rw [List.all_eq_true]
      intro c hc
      simpa using hnl c hc
    rw [if_pos hcond]

/-- C8 (counterexample): "abcd\nefghij" has length 11 and is two alphabetic
runs separated by one whitespace character (a newline), so the claim as
stated accepts it, yet `validate_concept` rejects it: the lookahead's dot
cannot cross the newline. -/
theorem c8_concept_counterexample :
    (10 ≤ "abcd\nefghij".data.length ∧ "abcd\nefghij".data.length ≤ 30 ∧
      isConceptWords "abcd\nefghij".data) ∧
    validate_concept "abcd\nefghij" = .error .invalidConcept := by
  refine ⟨⟨by decide, by decide, ?_⟩, by decide⟩
  exact ⟨['a', 'b', 'c', 'd'], [('\n', ['e', 'f', 'g', 'h', 'i', 'j'])],
    by decide, by decide, by decide, by decide, by decide⟩

/-- C2 (counterexample): an input object with key list
[IBAN, AMOUNT, EXTRA] — a key set different from exactly {IBAN, AMOUNT} —
does not fail at all: the extra key is ignored and the deposit succeeds, so
the invalid-key failure is not equivalent to the key set differing from
{IBAN, AMOUNT}. -/
theorem c2_extra_key_counterexample :
    (List.map (fun p => p.1)
      [("IBAN", "ES8200000000000000000000"), ("AMOUNT", "EUR 1234.56"),
        ("EXTRA", "x")] = ["IBAN", "AMOUNT", "EXTRA"]) ∧
    (deposit_into_account "1.0"
      ⟨.content [("IBAN", "ES8200000000000000000000"),
        ("AMOUNT", "EUR 1234.56"), ("EXTRA", "x")], .content []⟩).2.isOk
      = true :=
  ⟨rfl, rfl⟩

/-- C2 (witness): a deposit input object without the IBAN key fails with the
invalid-key error. -/
theorem c2_deposit_key_check_witness :
    (deposit_into_account "1.0"
      ⟨.content [("AMOUNT", "EUR 1234.56")], .content []⟩).2 =
      .error .invalidKey :=
  (c2_deposit_key_check "1.0" _ [("AMOUNT", "EUR 1234.56")] rfl).mpr
    (Or.inl rfl)

/-- C4 (witness): a fully valid transfer against an empty store succeeds and
appends its record. -/
theorem c4_transfer_duplicate_detection_witness :
    transfer_request ⟨2025, 10, 12⟩
      ⟨"ES8200000000000000000000", "ES5500000000000000000001",
        "transfer money", "ORDINARY", "12/10/2025", "100.50"⟩ ⟨.content []⟩ =
      (⟨.content ([] ++ [TransferRequest.to_json ⟨"ES8200000000000000000000",
        "ES5500000000000000000001", "transfer money", "ORDINARY",
        "12/10/2025", mkRat 201 2⟩])⟩,
        .ok (transfer_code ⟨"ES8200000000000000000000",
          "ES5500000000000000000001", "transfer money", "ORDINARY",
          "12/10/2025", mkRat 201 2⟩)) :=
  (c4_transfer_duplicate_detection ⟨2025, 10, 12⟩
    ⟨"ES8200000000000000000000", "ES5500000000000000000001",
      "transfer money", "ORDINARY", "12/10/2025", "100.50"⟩
    ⟨.content []⟩ [] rfl rfl rfl rfl rfl rfl (mkRat 201 2) rfl).2.1 (by simp)

/-- C6 (witness): the claim's example — two transactions of 50 and -20 for
the same IBAN — yields a stored snapshot with BALANCE 30. -/
theorem c6_calculate_balance_witness :
    matchingSum "ES8200000000000000000000"
      [⟨"ES8200000000000000000000", 50⟩, ⟨"ES8200000000000000000000", -20⟩]
      = 30 ∧
    calculate_balance 5 "ES8200000000000000000000"
      ⟨.content [⟨"ES8200000000000000000000", 50⟩,
        ⟨"ES8200000000000000000000", -20⟩], .content []⟩ =
      (⟨.content [⟨"ES8200000000000000000000", 50⟩,
        ⟨"ES8200000000000000000000", -20⟩],
        .content ([] ++ [⟨"ES8200000000000000000000", 5,
          matchingSum "ES8200000000000000000000"
            [⟨"ES8200000000000000000000", 50⟩,
              ⟨"ES8200000000000000000000", -20⟩]⟩])⟩, .ok true) :=
  ⟨by norm_num [matchingSum],
    (((c6_calculate_balance 5 "ES8200000000000000000000"
      ⟨.content [⟨"ES8200000000000000000000", 50⟩,
        ⟨"ES8200000000000000000000", -20⟩], .content []⟩ rfl).2 _ rfl).2
      (by decide)).1 [] rfl⟩

/-- C9 (witness): a failing transfer (invalid source IBAN) leaves the store
exactly as it was. -/
theorem c9_transfer_error_frame_witness :
    transfer_request ⟨2025, 10, 12⟩
      ⟨"EX", "ES5500000000000000000001", "transfer money", "ORDINARY",
        "12/10/2025", "100.50"⟩ ⟨.content []⟩ =
      (⟨.content []⟩, .error .invalidIbanFormat) ∧
    (⟨.content []⟩ : TransferFS) = ⟨.content []⟩ :=
  ⟨rfl, c9_transfer_error_frame ⟨2025, 10, 12⟩
    ⟨"EX", "ES5500000000000000000001", "transfer money", "ORDINARY",
      "12/10/2025", "100.50"⟩ ⟨.content []⟩ ⟨.content []⟩
    .invalidIbanFormat rfl⟩

/-- C10 (witness): a concrete successful deposit returns the signature that
sits in the record it appended. -/
theorem c10_deposit_signature_consistency_witness :
    (deposit_into_account "1.0"
      ⟨.content [("IBAN", "ES8200000000000000000000"),
        ("AMOUNT", "EUR 1234.56")], .content []⟩).2.isOk = true ∧
    ∃ prev rec,
      ((deposit_into_account "1.0"
        ⟨.content [("IBAN", "ES8200000000000000000000"),
          ("AMOUNT", "EUR 1234.56")], .content []⟩).1).deposits =
        .content (prev ++ [rec]) ∧
      (deposit_into_account "1.0"
        ⟨.content [("IBAN", "ES8200000000000000000000"),
          ("AMOUNT", "EUR 1234.56")], .content []⟩).2 =
        .ok rec.deposit_signature :=
  ⟨rfl, c10_deposit_signature_consistency "1.0" _ rfl⟩
